import Mathlib

/-!
# RobotControl: device data store and event handler

A shallow embedding of `src/lib/EventHandler/EventData.h` and
`src/lib/EventHandler/EventHandler.cpp`.

* `uint8_t` quantities are natural numbers; where the source narrows a wider
  value to `uint8_t` the embedding reduces it modulo 256 explicitly.
* `int16_t` quantities are integers; the sentinel is `-32768`.
* The block of records owned by the handler (`_events`) is a list of bytes,
  `sizeof(EVENT) = 12` bytes per record, so that `memcpy` is modelled at the
  granularity the source uses it.
* The SPIFFS file store is explicit state.
-/

namespace RobotControl

/-! ## EventData.h -/

/-- The sentinel `ED_INVALID_DATA`. -/
def ED_INVALID_DATA : Int := -32768

def ED_SIZE_MPU : Nat := 3
def ED_SIZE_TOUCH : Nat := 1
def ED_SIZE_PSXBUTTON : Nat := 1
def ED_SIZE_BATTERY_R : Nat := 1
def ED_SIZE_BATTERY_L : Nat := 1
def ED_SIZE_GPIO : Nat := 20

def ED_OFFSET_MPU : Nat := 0
def ED_OFFSET_TOUCH : Nat := 3
def ED_OFFSET_PSXBUTTON : Nat := 4
def ED_OFFSET_BATTERY_R : Nat := 5
def ED_OFFSET_BATTERY_L : Nat := 6
def ED_OFFSET_GPIO : Nat := 7

def ED_MAX_DEVICE : Nat := 6
def ED_DATA_SIZE : Nat := 64

/-- The enumerators of `EventData::DEVICE`. -/
def DEVICE.mpu : Nat := 1
def DEVICE.touch : Nat := 2
def DEVICE.psx_button : Nat := 3
def DEVICE.battery_reading : Nat := 4
def DEVICE.battery_level : Nat := 5
def DEVICE.gpio : Nat := 6

/-- The table `EventData::_offset`, indexed by device category. -/
def _offset : List Nat :=
  [0, ED_OFFSET_MPU, ED_OFFSET_TOUCH, ED_OFFSET_PSXBUTTON, ED_OFFSET_BATTERY_R,
    ED_OFFSET_BATTERY_L, ED_OFFSET_GPIO]

/-- The table `EventData::_size`, indexed by device category. -/
def _size : List Nat :=
  [0, ED_SIZE_MPU, ED_SIZE_TOUCH, ED_SIZE_PSXBUTTON, ED_SIZE_BATTERY_R,
    ED_SIZE_BATTERY_L, ED_SIZE_GPIO]

/-- The device data store: the array `int16_t _data[ED_DATA_SIZE]`. -/
structure EventData where
  _data : List Int
deriving DecidableEq, Repr

namespace EventData

/-- Modelled from the spec: the constructor of `EventData` (its body is in
`EventData.cpp`, which is not part of the sources): all 64 slots start at the
sentinel. -/
def init : EventData := ⟨List.replicate ED_DATA_SIZE ED_INVALID_DATA⟩

/-- Modelled from the spec: the body of `EventData::IsValid` (in `EventData.cpp`,
not part of the sources). "category must be a known value (nonzero, within the
declared set) and target must be in `[1, categorySize]`. instanceId is accepted
unconditionally." -/
def IsValid (device devId target : Nat) : Bool :=
  let _ := devId
  device != 0 && decide (device ≤ ED_MAX_DEVICE) &&
    decide (1 ≤ target) && decide (target ≤ _size.getD device 0)

/-- Modelled from the spec: the body of `EventData::Offset` (in `EventData.cpp`,
not part of the sources). "Resolved physical index = category base offset +
(target − 1); instance id is accepted but not yet folded into addressing." -/
def Offset (device devId target : Nat) : Nat :=
  let _ := devId
  _offset.getD device 0 + (target - 1)

/-- Modelled from the spec: the body of `EventData::GetData` (in `EventData.cpp`,
not part of the sources). "returns the sentinel invalid value if the address is
invalid; otherwise returns the stored value". -/
def GetData (d : EventData) (device devId target : Nat) : Int :=
  if !IsValid device devId target then ED_INVALID_DATA
  else d._data.getD (Offset device devId target) ED_INVALID_DATA

/-- Modelled from the spec: the body of `EventData::SetData` (in `EventData.cpp`,
not part of the sources). "fails (returns false, no mutation) if the address is
invalid; otherwise overwrites the resolved slot." -/
def SetData (d : EventData) (device devId target : Nat) (value : Int) : Bool × EventData :=
  if !IsValid device devId target then (false, d)
  else (true, ⟨d._data.set (Offset device devId target) value⟩)

end EventData

/-! ## EventHandler.h (declarations used by EventHandler.cpp) -/

/-- The size `sizeof(EVENT)`: the twelve bytes printed by `DumpEvents`. -/
def sizeofEVENT : Nat := 12

/-- Modelled from the spec: the enumeration `EVENT_TYPE` (declared in
`EventHandler.h`, not part of the sources): "0 = invalid/unset,
1 = precondition, 2 = handler". -/
def EVENT_TYPE.preCond : Nat := 1

/-- Modelled from the spec: see `EVENT_TYPE.preCond`. -/
def EVENT_TYPE.handler : Nat := 2

/-- The codes of the enumeration `CHECK_MODE` (declared in `EventHandler.h`, not
part of the sources, and not given numerically by the spec). They are the labels
of one `switch`, hence pairwise distinct. -/
structure CHECK_MODE where
  match_ : Nat
  greater : Nat
  less : Nat
  button : Nat
  distinct : [match_, greater, less, button].Nodup

/-- One admissible assignment of the check-mode codes. -/
def CHECK_MODE.sample : CHECK_MODE := ⟨1, 2, 3, 4, by decide⟩

/-- Reinterpret the low 16 bits of a natural number as an `int16_t`. -/
def toInt16 (n : Nat) : Int :=
  if n % 65536 < 32768 then (n % 65536 : Nat) else ((n % 65536 : Nat) : Int) - 65536

/-- The 16-bit two's-complement pattern of an `int16_t`, as a `uint16_t`. -/
def toUInt16 (x : Int) : Nat := (x % 65536).toNat

/-- The record `CONDITION` as read through its `data` view. -/
structure CONDITION where
  device : Nat
  devId : Nat
  target : Nat
  checkMode : Nat
  value : Int
deriving DecidableEq, Repr

/-- The record `EVENT` as its `buffer` view: the raw bytes of one record. -/
structure EVENT where
  buffer : List Nat
deriving DecidableEq, Repr

namespace EVENT

/-- The all-zero record produced by `memset(event.buffer, 0, sizeof(EVENT))`. -/
def zero : EVENT := ⟨List.replicate sizeofEVENT 0⟩

/-- Modelled from the spec: the layout of `EVENT` (declared in `EventHandler.h`,
not part of the sources), as documented by `DumpEvents`: byte 0 is the sequence
number. -/
def seq (e : EVENT) : Nat := e.buffer.getD 0 0

/-- Modelled from the spec: byte 1 of the `EVENT` layout is `data.type`. -/
def type (e : EVENT) : Nat := e.buffer.getD 1 0

/-- Modelled from the spec: bytes 2..7 of the `EVENT` layout are the condition:
device, devId, target, check mode and the little-endian signed 16-bit value. -/
def condition (e : EVENT) : CONDITION :=
  { device := e.buffer.getD 2 0
    devId := e.buffer.getD 3 0
    target := e.buffer.getD 4 0
    checkMode := e.buffer.getD 5 0
    value := toInt16 (e.buffer.getD 6 0 + 256 * e.buffer.getD 7 0) }

end EVENT

/-! ## EventHandler.cpp: condition matching and the evaluation pass -/

/-- The function `EventHandler::MatchCondition`. The `button` case computes
`uint16_t status = (value & cond.data.value)`: the bitwise AND of the two
sign-extended integers truncated to 16 bits, which is the bitwise AND of their
16-bit patterns. -/
def MatchCondition (m : CHECK_MODE) (d : EventData) (cond : CONDITION) : Bool :=
  if !EventData.IsValid cond.device cond.devId cond.target then false
  else
    let value := d.GetData cond.device cond.devId cond.target
    if cond.checkMode = m.match_ then
      if value = ED_INVALID_DATA then false else decide (value = cond.value)
    else if cond.checkMode = m.greater then
      if value = ED_INVALID_DATA then false else decide (value > cond.value)
    else if cond.checkMode = m.less then
      if value = ED_INVALID_DATA then false else decide (value < cond.value)
    else if cond.checkMode = m.button then
      let status := toUInt16 value &&& toUInt16 cond.value
      decide (status = 0)
    else false

/-- The loop of `EventHandler::CheckEvents` over the records still to be visited,
entered with the current value of `skipEvent`. -/
def CheckEventsFrom (m : CHECK_MODE) (d : EventData) : Bool → List EVENT → EVENT
  | _, [] => EVENT.zero
  | true, e :: es => CheckEventsFrom m d (e.type != EVENT_TYPE.handler) es
  | false, e :: es =>
    if MatchCondition m d e.condition then
      if e.type = EVENT_TYPE.handler then e
      else CheckEventsFrom m d false es
    else
      if e.type = EVENT_TYPE.preCond then CheckEventsFrom m d true es
      else CheckEventsFrom m d false es

/-- The function `EventHandler::CheckEvents` on a rule sequence: the loop is
entered with `skipEvent = false`. -/
def CheckEvents (m : CHECK_MODE) (d : EventData) (es : List EVENT) : EVENT :=
  CheckEventsFrom m d false es

/-! ## EventHandler.cpp: the handler state, its block of records and persistence -/

/-- The state of an `EventHandler`. `_events` is the block obtained from `malloc`,
byte by byte; `heapOverrun` is a ghost counter of the bytes that `memcpy` calls
of the handler have written past the end of that block. -/
structure EventHandler where
  _evtCount : Nat
  _events : List Nat
  _reqDevice : List Bool
  heapOverrun : Nat
deriving DecidableEq, Repr

/-- The SPIFFS file store as explicit state: whether `SPIFFS.begin()` succeeds,
whether opening a file for writing succeeds, whether `SPIFFS.remove` succeeds on
an existing file, how many bytes one `write` can store, and the files. -/
structure SPIFFS where
  beginOk : Bool
  openWriteOk : Bool
  removeOk : Bool
  space : Nat
  files : String → Option (List Nat)

/-- The effect of `memcpy(block + off, src, size)` on the block: a byte of the
block inside `[off, off + size)` receives the corresponding byte of `src`. -/
def memcpy (block : List Nat) (off : Nat) (src : List Nat) (size : Nat) : List Nat :=
  (List.range block.length).map fun j =>
    if off ≤ j ∧ j < off + size then src.getD (j - off) 0 else block.getD j 0

/-- The number of bytes of `[off, off + size)` that lie past the end of a block
of `len` bytes. -/
def memcpyOverrun (len off size : Nat) : Nat :=
  (off + size) - max off len

namespace EventHandler

/-- The constructor `EventHandler::EventHandler`. -/
def init : EventHandler :=
  { _evtCount := 0, _events := [], _reqDevice := List.replicate (ED_MAX_DEVICE + 1) false,
    heapOverrun := 0 }

/-- The accessor `Count()`. -/
def Count (h : EventHandler) : Nat := h._evtCount

/-- The record `_events[i]`: the twelve bytes at byte offset `i * sizeof(EVENT)`. -/
def event (h : EventHandler) (i : Nat) : EVENT :=
  ⟨(List.range sizeofEVENT).map fun k => h._events.getD (i * sizeofEVENT + k) 0⟩

/-- The rule sequence `_events[0 .. _evtCount)`. -/
def Events (h : EventHandler) : List EVENT :=
  (List.range h._evtCount).map h.event

/-- The handler state holding a given rule sequence. -/
def ofEvents (es : List EVENT) : EventHandler :=
  { init with _evtCount := es.length, _events := es.flatMap EVENT.buffer }

/-- The function `EventHandler::ReleaseMemory`. -/
def ReleaseMemory (h : EventHandler) : EventHandler :=
  if h._evtCount > 0 then { h with _evtCount := 0, _events := [] } else h

/-- The function `EventHandler::SetCount`; `count` is a `uint8_t`. -/
def SetCount (h : EventHandler) (count : Nat) : EventHandler :=
  let size := count * sizeofEVENT
  { h with _evtCount := count, _events := List.replicate size 0 }

/-- The function `EventHandler::FillData`. The destination is
`_events + startIdx * sizeof(EVENT)` with `_events` of type `EVENT *`, that is
byte offset `startIdx * sizeof(EVENT) * sizeof(EVENT)` of the block. -/
def FillData (h : EventHandler) (startIdx count : Nat) (buffer : List Nat) :
    Bool × EventHandler :=
  if startIdx > h._evtCount then (false, h)
  else if startIdx + count > h._evtCount then (false, h)
  else
    let dest := (startIdx * sizeofEVENT) * sizeofEVENT
    let size := count * sizeofEVENT
    (true, { h with
      _events := memcpy h._events dest buffer size
      heapOverrun := h.heapOverrun + memcpyOverrun h._events.length dest size })

/-- The function `EventHandler::Reset`. -/
def Reset (h : EventHandler) (count : Nat) : EventHandler :=
  h.ReleaseMemory.SetCount count

/-- The function `EventHandler::Clone`. -/
def Clone (h source : EventHandler) : Bool × EventHandler :=
  let h1 := h.ReleaseMemory.SetCount source.Count
  let size := h1._evtCount * sizeofEVENT
  (true, { h1 with
    _events := memcpy h1._events 0 source._events size
    heapOverrun := h1.heapOverrun + memcpyOverrun h1._events.length 0 size })

/-- The loop of `EventHandler::IsValid` over the records still to be visited. -/
def IsValidFrom : List EVENT → Bool
  | [] => true
  | evt :: rest =>
    if evt.type = 0 then false
    else if !EventData.IsValid evt.condition.device evt.condition.devId evt.condition.target
    then false
    else IsValidFrom rest

/-- The function `EventHandler::IsValid`. -/
def IsValid (h : EventHandler) : Bool :=
  IsValidFrom h.Events

/-- The function `EventHandler::FileSize`. -/
def FileSize (fs : SPIFFS) (fileName : String) : Nat :=
  if !fs.beginOk then 0
  else match fs.files fileName with
    | some bytes => bytes.length
    | none => 0

/-- The function `EventHandler::ReadFile`: `none` is the result `false`, and
`some bytes` is the result `true` with the buffer filled. -/
def ReadFile (fs : SPIFFS) (fileName : String) (size : Nat) : Option (List Nat) :=
  if !fs.beginOk then none
  else match fs.files fileName with
    | some bytes => if bytes.length = size then some bytes else none
    | none => none

/-- The function `EventHandler::LoadData`. The argument of `SetCount` is narrowed
to `uint8_t`. -/
def LoadData (h : EventHandler) (fs : SPIFFS) (filename : String) : Bool × EventHandler :=
  let h1 := h.ReleaseMemory
  let size := FileSize fs filename
  if size = 0 then (true, h1)
  else match ReadFile fs filename size with
    | none => (false, h1)
    | some buffer =>
      let h2 := h1.SetCount ((size / sizeofEVENT) % 256)
      (true, { h2 with
        _events := memcpy h2._events 0 buffer size
        heapOverrun := h2.heapOverrun + memcpyOverrun h2._events.length 0 size })

/-- The function `EventHandler::DeleteFile`. -/
def DeleteFile (fs : SPIFFS) (fileName : String) : Bool × SPIFFS :=
  if !fs.beginOk then (false, fs)
  else if (fs.files fileName).isSome then
    if fs.removeOk then
      (true, { fs with files := fun p => if p = fileName then none else fs.files p })
    else (false, fs)
  else (false, fs)

/-- The function `EventHandler::WriteFile`: opening for writing truncates the
file, and `write` stores as many of the `size` bytes as there is space for. -/
def WriteFile (fs : SPIFFS) (fileName : String) (buffer : List Nat) (size : Nat) :
    Bool × SPIFFS :=
  if !fs.beginOk then (false, fs)
  else if fs.openWriteOk then
    let wCnt := min size fs.space
    (decide (wCnt = size),
      { fs with files := fun p => if p = fileName then some (buffer.take wCnt) else fs.files p })
  else (false, fs)

/-- The function `EventHandler::SaveData`. -/
def SaveData (h : EventHandler) (fs : SPIFFS) (filename : String) : Bool × SPIFFS :=
  if h._evtCount = 0 then DeleteFile fs filename
  else
    let size := h._evtCount * sizeofEVENT
    WriteFile fs filename h._events size

/-- The function `EventHandler::IsRequired`. -/
def IsRequired (h : EventHandler) (device : Nat) : Bool :=
  if device ≤ ED_MAX_DEVICE then h._reqDevice.getD device false else false

/-- The function `EventHandler::CheckEventsRequirement`. -/
def CheckEventsRequirement (h : EventHandler) : EventHandler :=
  let cleared := List.replicate (ED_MAX_DEVICE + 1) false
  { h with _reqDevice := h.Events.foldl (fun req evt =>
      if EventData.IsValid evt.condition.device evt.condition.devId evt.condition.target
      then req.set evt.condition.device true else req) cleared }

/-- The function `EventHandler::CheckEvents` on the handler state. -/
def CheckEvents (m : CHECK_MODE) (d : EventData) (h : EventHandler) : EVENT :=
  RobotControl.CheckEvents m d h.Events

end EventHandler

/-! ## drivers/EdsPsxButton/EdsPsxButton.cpp -/

/-- The members of `EdsPsxButton` that `GetData` reads and writes. The time stamps
`_lastReportMS` and `_nextReportMs` are left out: the one comparison on the clock
is an input of the call. -/
structure EdsPsxButton where
  _Device : Nat
  _DevId : Nat
  _thisDataReady : Bool
  _lastDataReady : Bool
  _lastReportValue : Nat
  _lastValueHandled : Bool
deriving DecidableEq, Repr

/-- What one call of `EdsPsxButton::GetData` obtains from its collaborators: the
result of `IsReady()`, the result of `_ssb->SendCommand`, the bytes `peek(7)` and
`peek(8)` of the reply, and whether `millis() - _lastReportMS` is below
`EPB_IGNORE_REPEAT_TIME`. -/
structure PsxPoll where
  isReady : Bool
  sendOk : Bool
  peek7 : Nat
  peek8 : Nat
  withinRepeatTime : Bool
deriving DecidableEq, Repr

namespace EdsPsxButton

/-- The constructor `EdsPsxButton::EdsPsxButton`: the device is `psx_button`. -/
def create (devId : Nat) : EdsPsxButton :=
  { _Device := DEVICE.psx_button, _DevId := devId, _thisDataReady := false,
    _lastDataReady := false, _lastReportValue := 0, _lastValueHandled := false }

/-- The function `EdsPsxButton::GetData`: its result, the driver afterwards and
the device data store afterwards. `data` is assembled from `button[0] = peek(8)`
and `button[1] = peek(7)` and passed to `SetData` as an `int16_t`. -/
def GetData (b : EdsPsxButton) (d : EventData) (p : PsxPoll) :
    Bool × EdsPsxButton × EventData :=
  let b1 := { b with _thisDataReady := false }
  if !p.isReady then (false, b1, d)
  else
    let _prevDataRady := b1._lastDataReady
    let b2 := { b1 with _lastDataReady := false }
    if !p.sendOk then (false, b2, d)
    else
      let data := p.peek8 % 256 + 256 * (p.peek7 % 256)
      if _prevDataRady && b2._lastReportValue == data && b2._lastValueHandled &&
          p.withinRepeatTime then
        (false, { b2 with _lastDataReady := true }, d)
      else
        let d1 := (d.SetData b2._Device b2._DevId 0 (toInt16 data)).2
        (decide (data ≠ 0xFFFF),
          { b2 with _lastDataReady := true, _thisDataReady := true,
                    _lastReportValue := data, _lastValueHandled := false },
          d1)

end EdsPsxButton

end RobotControl

/-! ## Specification vocabulary for the evaluation pass -/

namespace RobotControl

/-- No record at an index in `[j, i)` has type `handler`. -/
def NoHandlerBetween (es : List EVENT) (j i : Nat) : Prop :=
  ∀ k, j ≤ k → k < i → ∀ e, es[k]? = some e → e.type ≠ EVENT_TYPE.handler

/-- Every precondition-typed record in the group of index `i` holds: the group is
the maximal run of non-handler records immediately preceding `i`, so index `j`
belongs to it exactly when no record in `[j, i)` is a handler. -/
def GroupHolds (m : CHECK_MODE) (d : EventData) (es : List EVENT) (i : Nat) : Prop :=
  ∀ j, j < i → NoHandlerBetween es j i → ∀ p, es[j]? = some p →
    p.type = EVENT_TYPE.preCond → MatchCondition m d p.condition = true

/-- Record `i` is a handler whose condition matches and whose group holds. -/
def Fires (m : CHECK_MODE) (d : EventData) (es : List EVENT) (i : Nat) : Prop :=
  ∃ e, es[i]? = some e ∧ e.type = EVENT_TYPE.handler ∧
    MatchCondition m d e.condition = true ∧ GroupHolds m d es i

/-- The value of `skipEvent` after a record has been visited without returning. -/
def nextSkip (m : CHECK_MODE) (d : EventData) (skip : Bool) (e : EVENT) : Bool :=
  if skip then e.type != EVENT_TYPE.handler
  else !MatchCondition m d e.condition && e.type == EVENT_TYPE.preCond

/-- Index `i` is reached with `skipEvent = false` when the loop is entered with
`skip`: the group of `i` holds and, if the loop starts out skipping, a handler
before `i` has ended the skip run. -/
def Reached (m : CHECK_MODE) (d : EventData) (skip : Bool) (es : List EVENT) (i : Nat) : Prop :=
  (skip = true → ∃ k, k < i ∧ ∃ e, es[k]? = some e ∧ e.type = EVENT_TYPE.handler) ∧
    GroupHolds m d es i

/-- Record `i` is a matching handler reached with `skipEvent = false` when the
loop is entered with `skip`. -/
def FiresFrom (m : CHECK_MODE) (d : EventData) (skip : Bool) (es : List EVENT) (i : Nat) : Prop :=
  ∃ e, es[i]? = some e ∧ e.type = EVENT_TYPE.handler ∧
    MatchCondition m d e.condition = true ∧ Reached m d skip es i

end RobotControl

/-! ## The evaluation pass -/

namespace RobotControl

theorem noHandlerBetween_cons_succ (e : EVENT) (es : List EVENT) (j i : Nat) :
    NoHandlerBetween (e :: es) (j + 1) (i + 1) ↔ NoHandlerBetween es j i := by
  constructor
  · intro h k hjk hki x hx
    exact h (k + 1) (by omega) (by omega) x (by simpa using hx)
  · intro h k hjk hki x hx
    obtain ⟨k', rfl⟩ : ∃ k', k = k' + 1 := ⟨k - 1, by omega⟩
    exact h k' (by omega) (by omega) x (by simpa using hx)

theorem reached_cons_succ (m : CHECK_MODE) (d : EventData) (skip : Bool) (e : EVENT)
    (es : List EVENT) (i : Nat) :
    Reached m d skip (e :: es) (i + 1) ↔ Reached m d (nextSkip m d skip e) es i := by
  constructor
  · rintro ⟨hA, hB⟩
    refine ⟨?_, ?_⟩
    · intro hn
      have key : ∃ k, k < i + 1 ∧ ∃ x, (e :: es)[k]? = some x ∧ x.type = EVENT_TYPE.handler := by
        cases skip with
        | true => exact hA rfl
        | false =>
          by_contra hne
          have hno : NoHandlerBetween (e :: es) 0 (i + 1) := by
            intro k _ hk x hx hty
            exact hne ⟨k, hk, x, hx, hty⟩
          simp only [nextSkip, Bool.false_eq_true, if_false, Bool.and_eq_true,
            Bool.not_eq_true', beq_iff_eq] at hn
          have := hB 0 (by omega) hno e (by simp) hn.2
          rw [hn.1] at this
          exact Bool.false_ne_true this
      obtain ⟨k, hk, x, hx, hty⟩ := key
      cases k with
      | zero =>
        simp only [List.getElem?_cons_zero, Option.some.injEq] at hx
        subst hx
        cases skip with
        | true => simp [nextSkip, hty] at hn
        | false =>
          simp only [nextSkip, Bool.false_eq_true, if_false, Bool.and_eq_true,
            beq_iff_eq] at hn
          rw [hn.2] at hty
          exact absurd hty (by decide)
      | succ k' => exact ⟨k', by omega, x, by simpa using hx, hty⟩
    · intro j hj hno p hp hpt
      exact hB (j + 1) (by omega) ((noHandlerBetween_cons_succ e es j i).2 hno) p
        (by simpa using hp) hpt
  · rintro ⟨hA, hB⟩
    have hex : nextSkip m d skip e = true →
        ∃ k, k < i + 1 ∧ ∃ x, (e :: es)[k]? = some x ∧ x.type = EVENT_TYPE.handler := by
      intro hn
      obtain ⟨k, hk, x, hx, hty⟩ := hA hn
      exact ⟨k + 1, by omega, x, by simpa using hx, hty⟩
    refine ⟨?_, ?_⟩
    · intro hs
      subst hs
      by_cases hty : e.type = EVENT_TYPE.handler
      · exact ⟨0, by omega, e, by simp, hty⟩
      · exact hex (by simp [nextSkip, hty])
    · intro j hj hno p hp hpt
      cases j with
      | zero =>
        simp only [List.getElem?_cons_zero, Option.some.injEq] at hp
        subst hp
        by_contra hmatch
        have hn : nextSkip m d skip e = true := by
          cases skip with
          | true => simp [nextSkip, hpt, EVENT_TYPE.preCond, EVENT_TYPE.handler]
          | false => simp [nextSkip, hpt, hmatch]
        obtain ⟨k, hk, x, hx, hty⟩ := hex hn
        exact hno k (by omega) hk x hx hty
      | succ j' =>
        exact hB j' (by omega) ((noHandlerBetween_cons_succ e es j' i).1 hno) p
          (by simpa using hp) hpt

end RobotControl

namespace RobotControl

theorem firesFrom_cons_succ (m : CHECK_MODE) (d : EventData) (skip : Bool) (e : EVENT)
    (es : List EVENT) (i : Nat) :
    FiresFrom m d skip (e :: es) (i + 1) ↔ FiresFrom m d (nextSkip m d skip e) es i := by
  unfold FiresFrom
  simp only [List.getElem?_cons_succ, reached_cons_succ]

theorem firesFrom_false_iff (m : CHECK_MODE) (d : EventData) (es : List EVENT) (i : Nat) :
    FiresFrom m d false es i ↔ Fires m d es i := by
  simp [FiresFrom, Fires, Reached]

/-- The loop either returns at the head or continues on the tail with the next
value of `skipEvent`. -/
theorem checkEventsFrom_cons (m : CHECK_MODE) (d : EventData) (skip : Bool) (e : EVENT)
    (es : List EVENT) :
    CheckEventsFrom m d skip (e :: es) =
      if skip = false ∧ MatchCondition m d e.condition = true ∧ e.type = EVENT_TYPE.handler
      then e else CheckEventsFrom m d (nextSkip m d skip e) es := by
  cases skip with
  | true => simp [CheckEventsFrom, nextSkip]
  | false =>
    by_cases hm : MatchCondition m d e.condition = true
    · by_cases ht : e.type = EVENT_TYPE.handler
      · simp [CheckEventsFrom, hm, ht]
      · simp [CheckEventsFrom, nextSkip, hm, ht]
    · by_cases hp : e.type = EVENT_TYPE.preCond
      · simp [CheckEventsFrom, nextSkip, hm, hp]
      · have hb : (e.type == EVENT_TYPE.preCond) = false := by simpa using hp
        simp [CheckEventsFrom, nextSkip, hm, hp, hb]

theorem checkEventsFrom_spec (m : CHECK_MODE) (d : EventData) (es : List EVENT) :
    ∀ skip : Bool,
      (∃ i e, es[i]? = some e ∧ FiresFrom m d skip es i ∧
          (∀ j, j < i → ¬ FiresFrom m d skip es j) ∧ CheckEventsFrom m d skip es = e) ∨
      ((∀ i, ¬ FiresFrom m d skip es i) ∧ CheckEventsFrom m d skip es = EVENT.zero) := by
  induction es with
  | nil =>
    intro skip
    right
    refine ⟨?_, by simp [CheckEventsFrom]⟩
    rintro i ⟨e, he, _⟩
    simp at he
  | cons e es ih =>
    intro skip
    rw [checkEventsFrom_cons]
    by_cases hret : skip = false ∧ MatchCondition m d e.condition = true ∧
        e.type = EVENT_TYPE.handler
    · left
      obtain ⟨hs, hm, ht⟩ := hret
      refine ⟨0, e, by simp, ⟨e, by simp, ht, hm, ?_, ?_⟩, ?_, by simp [hs, hm, ht]⟩
      · intro h; rw [hs] at h; exact absurd h (by decide)
      · intro j hj; omega
      · intro j hj; omega
    · rw [if_neg hret]
      have h0 : ¬ FiresFrom m d skip (e :: es) 0 := by
        rintro ⟨x, hx, ht, hm, hA, _⟩
        simp only [List.getElem?_cons_zero, Option.some.injEq] at hx
        subst hx
        cases skip with
        | true =>
          obtain ⟨k, hk, _⟩ := hA rfl
          omega
        | false => exact hret ⟨rfl, hm, ht⟩
      rcases ih (nextSkip m d skip e) with ⟨i, x, hx, hf, hmin, hres⟩ | ⟨hnone, hres⟩
      · left
        refine ⟨i + 1, x, by simpa using hx, (firesFrom_cons_succ m d skip e es i).2 hf, ?_, hres⟩
        intro j hj
        cases j with
        | zero => exact h0
        | succ j' =>
          rw [firesFrom_cons_succ]
          exact hmin j' (by omega)
      · right
        refine ⟨?_, hres⟩
        intro i
        cases i with
        | zero => exact h0
        | succ i' =>
          rw [firesFrom_cons_succ]
          exact hnone i'

/-- C1: `CheckEvents` returns a copy of the record at the least index `i` such
that record `i` is a handler whose condition matches and every precondition-typed
record of its group (the maximal run of non-handler records just before `i`)
matches; if there is no such index it returns the all-zero record. -/
theorem CheckEvents_returns_least_firing (m : CHECK_MODE) (d : EventData) (es : List EVENT) :
    (∃ i e, es[i]? = some e ∧ Fires m d es i ∧ (∀ j, j < i → ¬ Fires m d es j) ∧
        CheckEvents m d es = e) ∨
    ((∀ i, ¬ Fires m d es i) ∧ CheckEvents m d es = EVENT.zero) := by
  have h := checkEventsFrom_spec m d es false
  simp only [firesFrom_false_iff] at h
  exact h

end RobotControl

namespace RobotControl

/-- C2: the record returned by `CheckEvents` is either the all-zero record (whose
type is 0) or one of the records of the sequence, of type handler and with a
matching condition; its type is never precondition nor any other value than 0
and 2, and the empty sequence yields the all-zero record. -/
theorem CheckEvents_result_is_zero_or_matched_handler (m : CHECK_MODE) (d : EventData)
    (es : List EVENT) :
    (CheckEvents m d es = EVENT.zero ∨
      ∃ e, e ∈ es ∧ CheckEvents m d es = e ∧ e.type = EVENT_TYPE.handler ∧
        MatchCondition m d e.condition = true) ∧
    ((CheckEvents m d es).type = 0 ∨ (CheckEvents m d es).type = 2) ∧
    (CheckEvents m d es).type ≠ EVENT_TYPE.preCond ∧
    EVENT.zero.buffer = [0, 0, 0, 0, 0, 0, 0, 0, 0, 0, 0, 0] ∧
    EVENT.zero.type = 0 ∧
    CheckEvents m d [] = EVENT.zero := by
  have hz : EVENT.zero.type = 0 := by decide
  have key : CheckEvents m d es = EVENT.zero ∨
      ∃ e, e ∈ es ∧ CheckEvents m d es = e ∧ e.type = EVENT_TYPE.handler ∧
        MatchCondition m d e.condition = true := by
    rcases checkEventsFrom_spec m d es false with ⟨i, e, he, ⟨x, hx, ht, hm, _⟩, _, hres⟩ | ⟨_, hres⟩
    · right
      rw [he] at hx
      cases hx
      exact ⟨e, List.mem_iff_getElem?.2 ⟨i, he⟩, hres, ht, hm⟩
    · exact Or.inl hres
  refine ⟨key, ?_, ?_, by decide, hz, by simp [CheckEvents, CheckEventsFrom]⟩
  · rcases key with h | ⟨e, _, h, ht, _⟩
    · left; rw [h, hz]
    · right; rw [h, ht]; rfl
  · rcases key with h | ⟨e, _, h, ht, _⟩
    · rw [h, hz]; decide
    · rw [h, ht]; decide

/-- C3: when `P` is a precondition whose condition does not match and `H1` is a
handler, `CheckEvents` on `P :: H1 :: rest` equals `CheckEvents` on `rest`; so
`[P, H1]` yields the all-zero record and `[P, H1, H2]` with `H2` a matching
handler yields `H2`. -/
theorem CheckEvents_failed_precondition_skips_handler (m : CHECK_MODE) (d : EventData)
    (P H1 : EVENT) (rest : List EVENT)
    (hP : P.type = EVENT_TYPE.preCond)
    (hPm : MatchCondition m d P.condition = false)
    (hH1 : H1.type = EVENT_TYPE.handler) :
    CheckEvents m d (P :: H1 :: rest) = CheckEvents m d rest ∧
    CheckEvents m d [P, H1] = EVENT.zero ∧
    ∀ H2 : EVENT, H2.type = EVENT_TYPE.handler → MatchCondition m d H2.condition = true →
      CheckEvents m d [P, H1, H2] = H2 := by
  have step : ∀ tl, CheckEvents m d (P :: H1 :: tl) = CheckEvents m d tl := by
    intro tl
    simp [CheckEvents, CheckEventsFrom, hP, hPm, hH1]
  refine ⟨step rest, ?_, ?_⟩
  · rw [step]; simp [CheckEvents, CheckEventsFrom]
  · intro H2 h2 hm2
    rw [step]
    simp [CheckEvents, CheckEventsFrom, h2, hm2]

theorem CheckEvents_failed_precondition_skips_handler_witness :
    (CheckEvents CHECK_MODE.sample EventData.init
        (⟨[0, 1, 2, 0, 1, 1, 1, 0, 0, 0, 0, 0]⟩ :: ⟨[1, 2, 2, 0, 1, 4, 1, 0, 0, 0, 0, 0]⟩ ::
          [⟨[2, 2, 6, 0, 3, 4, 2, 0, 9, 9, 9, 9]⟩]) =
      CheckEvents CHECK_MODE.sample EventData.init [⟨[2, 2, 6, 0, 3, 4, 2, 0, 9, 9, 9, 9]⟩]) ∧
    CheckEvents CHECK_MODE.sample EventData.init
        [⟨[0, 1, 2, 0, 1, 1, 1, 0, 0, 0, 0, 0]⟩, ⟨[1, 2, 2, 0, 1, 4, 1, 0, 0, 0, 0, 0]⟩] =
      EVENT.zero ∧
    CheckEvents CHECK_MODE.sample EventData.init
        [⟨[0, 1, 2, 0, 1, 1, 1, 0, 0, 0, 0, 0]⟩, ⟨[1, 2, 2, 0, 1, 4, 1, 0, 0, 0, 0, 0]⟩,
          ⟨[2, 2, 6, 0, 3, 4, 2, 0, 9, 9, 9, 9]⟩] =
      ⟨[2, 2, 6, 0, 3, 4, 2, 0, 9, 9, 9, 9]⟩ :=
  have h := CheckEvents_failed_precondition_skips_handler CHECK_MODE.sample EventData.init
    ⟨[0, 1, 2, 0, 1, 1, 1, 0, 0, 0, 0, 0]⟩ ⟨[1, 2, 2, 0, 1, 4, 1, 0, 0, 0, 0, 0]⟩
    [⟨[2, 2, 6, 0, 3, 4, 2, 0, 9, 9, 9, 9]⟩] (by decide) (by decide) (by decide)
  ⟨h.1, h.2.1, h.2.2 ⟨[2, 2, 6, 0, 3, 4, 2, 0, 9, 9, 9, 9]⟩ (by decide) (by decide)⟩

end RobotControl

/-! ## Condition matching -/

namespace RobotControl

theorem CHECK_MODE.codes_ne (m : CHECK_MODE) :
    m.match_ ≠ m.greater ∧ m.match_ ≠ m.less ∧ m.match_ ≠ m.button ∧
    m.greater ≠ m.less ∧ m.greater ≠ m.button ∧ m.less ≠ m.button := by
  have h := m.distinct
  simp only [List.nodup_cons, List.mem_cons, List.mem_singleton, not_or, List.not_mem_nil,
    not_false_eq_true, List.nodup_nil, and_true] at h
  obtain ⟨⟨h1, h2, h3⟩, ⟨h4, h5⟩, h6⟩ := h
  exact ⟨h1, h2, h3, h4, h5, h6⟩

/-- C4: in check modes match, greater and less, `MatchCondition` is true exactly
when the address is valid, the stored value is not the sentinel -32768 and the
stored value is equal to, greater than, or less than the comparison value; for a
check mode other than match, greater, less and button it is false. -/
theorem MatchCondition_compare_modes (m : CHECK_MODE) (d : EventData) (c : CONDITION) :
    (c.checkMode = m.match_ →
      (MatchCondition m d c = true ↔
        EventData.IsValid c.device c.devId c.target = true ∧
        d._data.getD (EventData.Offset c.device c.devId c.target) ED_INVALID_DATA ≠ -32768 ∧
        d._data.getD (EventData.Offset c.device c.devId c.target) ED_INVALID_DATA = c.value)) ∧
    (c.checkMode = m.greater →
      (MatchCondition m d c = true ↔
        EventData.IsValid c.device c.devId c.target = true ∧
        d._data.getD (EventData.Offset c.device c.devId c.target) ED_INVALID_DATA ≠ -32768 ∧
        d._data.getD (EventData.Offset c.device c.devId c.target) ED_INVALID_DATA > c.value)) ∧
    (c.checkMode = m.less →
      (MatchCondition m d c = true ↔
        EventData.IsValid c.device c.devId c.target = true ∧
        d._data.getD (EventData.Offset c.device c.devId c.target) ED_INVALID_DATA ≠ -32768 ∧
        d._data.getD (EventData.Offset c.device c.devId c.target) ED_INVALID_DATA < c.value)) ∧
    (c.checkMode ≠ m.match_ → c.checkMode ≠ m.greater → c.checkMode ≠ m.less →
      c.checkMode ≠ m.button → MatchCondition m d c = false) := by
  obtain ⟨h1, h2, _, h4, _, _⟩ := m.codes_ne
  refine ⟨?_, ?_, ?_, ?_⟩
  · intro hm
    by_cases hv : EventData.IsValid c.device c.devId c.target = true
    · simp [MatchCondition, EventData.GetData, hv, hm, ED_INVALID_DATA]
    · simp [MatchCondition, hv]
  · intro hm
    have hne : ¬ m.greater = m.match_ := fun h => h1 h.symm
    by_cases hv : EventData.IsValid c.device c.devId c.target = true
    · simp [MatchCondition, EventData.GetData, hv, hm, hne, ED_INVALID_DATA]
    · simp [MatchCondition, hv]
  · intro hm
    have hne : ¬ m.less = m.match_ := fun h => h2 h.symm
    have hne2 : ¬ m.less = m.greater := fun h => h4 h.symm
    by_cases hv : EventData.IsValid c.device c.devId c.target = true
    · simp [MatchCondition, EventData.GetData, hv, hm, hne, hne2, ED_INVALID_DATA]
    · simp [MatchCondition, hv]
  · intro n1 n2 n3 n4
    simp [MatchCondition, n1, n2, n3, n4]

theorem MatchCondition_compare_modes_witness :
    (MatchCondition CHECK_MODE.sample ⟨[0, 0, 0, 7, 0]⟩ ⟨2, 0, 1, 1, 7⟩ = true ↔
      EventData.IsValid 2 0 1 = true ∧
      (⟨[0, 0, 0, 7, 0]⟩ : EventData)._data.getD (EventData.Offset 2 0 1) ED_INVALID_DATA ≠ -32768 ∧
      (⟨[0, 0, 0, 7, 0]⟩ : EventData)._data.getD (EventData.Offset 2 0 1) ED_INVALID_DATA = 7) ∧
    MatchCondition CHECK_MODE.sample ⟨[0, 0, 0, 7, 0]⟩ ⟨2, 0, 1, 1, 7⟩ = true ∧
    MatchCondition CHECK_MODE.sample ⟨[0, 0, 0, 7, 0]⟩ ⟨2, 0, 1, 9, 7⟩ = false :=
  ⟨(MatchCondition_compare_modes CHECK_MODE.sample ⟨[0, 0, 0, 7, 0]⟩ ⟨2, 0, 1, 1, 7⟩).1 (by decide),
    by decide,
    (MatchCondition_compare_modes CHECK_MODE.sample ⟨[0, 0, 0, 7, 0]⟩ ⟨2, 0, 1, 9, 7⟩).2.2.2
      (by decide) (by decide) (by decide) (by decide)⟩

end RobotControl

namespace RobotControl

theorem toUInt16_lt (x : Int) : toUInt16 x < 2 ^ 16 := by
  unfold toUInt16
  omega

theorem and_eq_zero_iff_no_common_bit (a b : Nat) (ha : a < 2 ^ 16) :
    a &&& b = 0 ↔ ∀ i, i < 16 → ¬ (a.testBit i = true ∧ b.testBit i = true) := by
  constructor
  · intro h i _ hab
    have : (a &&& b).testBit i = true := by rw [Nat.testBit_and, hab.1, hab.2]; rfl
    rw [h] at this
    simp at this
  · intro h
    apply Nat.eq_of_testBit_eq
    intro i
    rw [Nat.testBit_and, Nat.zero_testBit]
    by_cases hi : i < 16
    · have := h i hi
      cases ha' : a.testBit i <;> cases hb' : b.testBit i <;> simp_all
    · have hlt : a < 2 ^ i := lt_of_lt_of_le ha (Nat.pow_le_pow_right (by decide) (by omega))
      rw [Nat.testBit_lt_two_pow hlt]
      rfl

/-- C5: in button check mode with a valid address, `MatchCondition` is true
exactly when the bitwise AND of the 16-bit stored value and the comparison value
is zero, that is when no bit of the mask is set in the stored value; stored 0x00
with mask 0x01 matches and stored 0x01 with mask 0x01 does not. -/
theorem MatchCondition_button_mode (m : CHECK_MODE) (d : EventData) (c : CONDITION)
    (hmode : c.checkMode = m.button)
    (hvalid : EventData.IsValid c.device c.devId c.target = true) :
    (MatchCondition m d c = true ↔
      toUInt16 (d._data.getD (EventData.Offset c.device c.devId c.target) ED_INVALID_DATA) &&&
        toUInt16 c.value = 0) ∧
    (MatchCondition m d c = true ↔
      ∀ i, i < 16 →
        ¬ ((toUInt16 (d._data.getD (EventData.Offset c.device c.devId c.target)
              ED_INVALID_DATA)).testBit i = true ∧
            (toUInt16 c.value).testBit i = true)) ∧
    (d._data.getD (EventData.Offset c.device c.devId c.target) ED_INVALID_DATA = 0x00 →
      c.value = 0x01 → MatchCondition m d c = true) ∧
    (d._data.getD (EventData.Offset c.device c.devId c.target) ED_INVALID_DATA = 0x01 →
      c.value = 0x01 → MatchCondition m d c = false) := by
  obtain ⟨_, _, h3, _, h5, h6⟩ := m.codes_ne
  have e1 : ¬ m.button = m.match_ := fun h => h3 h.symm
  have e2 : ¬ m.button = m.greater := fun h => h5 h.symm
  have e3 : ¬ m.button = m.less := fun h => h6 h.symm
  have key : MatchCondition m d c = true ↔
      toUInt16 (d._data.getD (EventData.Offset c.device c.devId c.target) ED_INVALID_DATA) &&&
        toUInt16 c.value = 0 := by
    simp [MatchCondition, EventData.GetData, hvalid, hmode, e1, e2, e3]
  refine ⟨key, ?_, ?_, ?_⟩
  · rw [key]
    exact and_eq_zero_iff_no_common_bit _ _ (toUInt16_lt _)
  · intro hs hc
    rw [key, hs, hc]
    decide
  · intro hs hc
    have : ¬ MatchCondition m d c = true := by
      rw [key, hs, hc]
      decide
    simpa using this

theorem MatchCondition_button_mode_witness :
    MatchCondition CHECK_MODE.sample ⟨[5, 5, 5, 5, 0x00]⟩ ⟨3, 0, 1, 4, 0x01⟩ = true ∧
    MatchCondition CHECK_MODE.sample ⟨[5, 5, 5, 5, 0x01]⟩ ⟨3, 0, 1, 4, 0x01⟩ = false :=
  ⟨(MatchCondition_button_mode CHECK_MODE.sample ⟨[5, 5, 5, 5, 0x00]⟩ ⟨3, 0, 1, 4, 0x01⟩
      (by decide) (by decide)).2.2.1 (by decide) (by decide),
    (MatchCondition_button_mode CHECK_MODE.sample ⟨[5, 5, 5, 5, 0x01]⟩ ⟨3, 0, 1, 4, 0x01⟩
      (by decide) (by decide)).2.2.2 (by decide) (by decide)⟩

end RobotControl

/-! ## Bulk overwrite and persistence -/

namespace RobotControl

/-- C6: evaluation of `FillData` on a sequence of 20 zeroed records with
`startIdx = 1`, `count = 1`: it returns true, record 1 keeps its old contents and
the buffer lands in record 12; on a sequence of 2 records the same call writes
twelve bytes past the end of the block. -/
theorem FillData_startIdx_one_writes_record_twelve :
    ((EventHandler.init.Reset 20).FillData 1 1 [9, 2, 2, 0, 1, 4, 1, 0, 5, 6, 7, 8]).1 = true ∧
    ((EventHandler.init.Reset 20).FillData 1 1 [9, 2, 2, 0, 1, 4, 1, 0, 5, 6, 7, 8]).2.event 1 =
      (EventHandler.init.Reset 20).event 1 ∧
    ((EventHandler.init.Reset 20).FillData 1 1 [9, 2, 2, 0, 1, 4, 1, 0, 5, 6, 7, 8]).2.event 1 ≠
      ⟨[9, 2, 2, 0, 1, 4, 1, 0, 5, 6, 7, 8]⟩ ∧
    (EventHandler.init.Reset 20).event 12 = EVENT.zero ∧
    ((EventHandler.init.Reset 20).FillData 1 1 [9, 2, 2, 0, 1, 4, 1, 0, 5, 6, 7, 8]).2.event 12 =
      ⟨[9, 2, 2, 0, 1, 4, 1, 0, 5, 6, 7, 8]⟩ ∧
    ((EventHandler.init.Reset 2).FillData 1 1 [9, 2, 2, 0, 1, 4, 1, 0, 5, 6, 7, 8]).1 = true ∧
    ((EventHandler.init.Reset 2).FillData 1 1 [9, 2, 2, 0, 1, 4, 1, 0, 5, 6, 7, 8]).2.Events =
      (EventHandler.init.Reset 2).Events ∧
    ((EventHandler.init.Reset 2).FillData 1 1
      [9, 2, 2, 0, 1, 4, 1, 0, 5, 6, 7, 8]).2.heapOverrun = 12 := by
  set_option maxRecDepth 100000 in
  decide

/-- C7: `FillData` returns false exactly when `startIdx + count` exceeds the
record count (the sum taken in unbounded arithmetic), and when it returns false
the handler state, hence the count and every record, is unchanged. -/
theorem FillData_false_iff_out_of_range (h : EventHandler) (startIdx count : Nat)
    (buffer : List Nat) :
    ((h.FillData startIdx count buffer).1 = false ↔ startIdx + count > h._evtCount) ∧
    ((h.FillData startIdx count buffer).1 = false →
      (h.FillData startIdx count buffer).2 = h ∧
      (h.FillData startIdx count buffer).2.Count = h.Count ∧
      (h.FillData startIdx count buffer).2.Events = h.Events) := by
  unfold EventHandler.FillData
  by_cases h1 : startIdx > h._evtCount
  · simp only [h1, if_true, true_iff, and_self, implies_true, and_true]
    omega
  · by_cases h2 : startIdx + count > h._evtCount
    · simp [h1, h2]
    · simp [h1, h2]

theorem FillData_false_iff_out_of_range_witness :
    (((EventHandler.init.Reset 20).FillData 19 2 [1, 2, 3]).1 = false ↔
      19 + 2 > (EventHandler.init.Reset 20)._evtCount) ∧
    ((EventHandler.init.Reset 20).FillData 19 2 [1, 2, 3]).2 = EventHandler.init.Reset 20 ∧
    ((EventHandler.init.Reset 20).FillData 19 2 [1, 2, 3]).2.Count =
      (EventHandler.init.Reset 20).Count ∧
    ((EventHandler.init.Reset 20).FillData 19 2 [1, 2, 3]).2.Events =
      (EventHandler.init.Reset 20).Events :=
  ⟨(FillData_false_iff_out_of_range (EventHandler.init.Reset 20) 19 2 [1, 2, 3]).1,
    (FillData_false_iff_out_of_range (EventHandler.init.Reset 20) 19 2 [1, 2, 3]).2 (by decide)⟩

end RobotControl

namespace RobotControl

/-- C8: evaluation of `LoadData` on a file of 13 bytes: it returns true with a
record count of 1, so that count times 12 differs from the file size, and the
copy of the file writes one byte past the end of the block. -/
theorem LoadData_accepts_unaligned_file :
    (EventHandler.init.LoadData
      ⟨true, true, true, 0, fun p => if p = "/e" then
        some [0, 2, 2, 0, 1, 4, 1, 0, 0, 0, 0, 0, 77] else none⟩ "/e").1 = true ∧
    (EventHandler.init.LoadData
      ⟨true, true, true, 0, fun p => if p = "/e" then
        some [0, 2, 2, 0, 1, 4, 1, 0, 0, 0, 0, 0, 77] else none⟩ "/e").2._evtCount = 1 ∧
    (EventHandler.init.LoadData
      ⟨true, true, true, 0, fun p => if p = "/e" then
        some [0, 2, 2, 0, 1, 4, 1, 0, 0, 0, 0, 0, 77] else none⟩ "/e").2._evtCount * sizeofEVENT ≠
      [0, 2, 2, 0, 1, 4, 1, 0, 0, 0, 0, 0, 77].length ∧
    (EventHandler.init.LoadData
      ⟨true, true, true, 0, fun p => if p = "/e" then
        some [0, 2, 2, 0, 1, 4, 1, 0, 0, 0, 0, 0, 77] else none⟩ "/e").2.heapOverrun = 1 := by
  decide

theorem memcpy_whole_block (bytes : List Nat) :
    memcpy (List.replicate bytes.length 0) 0 bytes bytes.length = bytes := by
  apply List.ext_getElem
  · simp [memcpy]
  · intro n h1 h2
    simp only [memcpy, List.length_replicate, List.getElem_map, List.getElem_range]
    have hn : 0 ≤ n ∧ n < 0 + bytes.length := ⟨by omega, by omega⟩
    rw [if_pos hn]
    simp [List.getD_eq_getElem?_getD, List.getElem?_eq_getElem h2]

/-- C9: on a file store where mounting, opening for writing and writing the whole
block succeed, `SaveData` of a non-empty rule sequence returns true and a
following `LoadData` of the same path returns true and leaves the same record
count and the same bytes, hence the same records in the same order. -/
theorem SaveData_then_LoadData_restores (h h0 : EventHandler) (fs : SPIFFS) (path : String)
    (hmount : fs.beginOk = true) (hopen : fs.openWriteOk = true)
    (hspace : h._evtCount * sizeofEVENT ≤ fs.space)
    (hne : 0 < h._evtCount) (hcount : h._evtCount < 256)
    (hblock : h._events.length = h._evtCount * sizeofEVENT) :
    (h.SaveData fs path).1 = true ∧
    (h.SaveData fs path).2.files path = some h._events ∧
    (h0.LoadData (h.SaveData fs path).2 path).1 = true ∧
    (h0.LoadData (h.SaveData fs path).2 path).2._evtCount = h._evtCount ∧
    (h0.LoadData (h.SaveData fs path).2 path).2._events = h._events ∧
    (h0.LoadData (h.SaveData fs path).2 path).2.Events = h.Events ∧
    (h0.LoadData (h.SaveData fs path).2 path).2.heapOverrun = h0.heapOverrun := by
  have hn0 : h._evtCount ≠ 0 := by omega
  have hmin : min (h._evtCount * sizeofEVENT) fs.space = h._evtCount * sizeofEVENT :=
    Nat.min_eq_left hspace
  have htake : h._events.take (h._evtCount * sizeofEVENT) = h._events := by
    rw [← hblock]; exact List.take_length _
  have hsave : h.SaveData fs path =
      (true, { fs with files := fun p => if p = path then some h._events else fs.files p }) := by
    simp [EventHandler.SaveData, EventHandler.WriteFile, hn0, hmount, hopen, hmin, htake]
  have hlen0 : h._events.length ≠ 0 := by
    rw [hblock]; simp [sizeofEVENT]; omega
  have hdiv : h._events.length / sizeofEVENT % 256 = h._evtCount := by
    rw [hblock, Nat.mul_div_cancel _ (by decide : 0 < sizeofEVENT), Nat.mod_eq_of_lt hcount]
  have hrel : h0.ReleaseMemory.heapOverrun = h0.heapOverrun := by
    unfold EventHandler.ReleaseMemory
    split <;> rfl
  have hload : h0.LoadData (h.SaveData fs path).2 path =
      (true, { h0.ReleaseMemory with
        _evtCount := h._evtCount, _events := h._events,
        heapOverrun := h0.ReleaseMemory.heapOverrun }) := by
    rw [hsave]
    simp only [EventHandler.LoadData, EventHandler.FileSize, EventHandler.ReadFile, hmount,
      Bool.not_true, Bool.false_eq_true, if_false, if_true, hlen0, hdiv,
      EventHandler.SetCount]
    have h1 : List.replicate (h._evtCount * sizeofEVENT) 0 =
        List.replicate h._events.length 0 := by rw [hblock]
    simp only [h1, memcpy_whole_block, List.length_replicate, memcpyOverrun]
    simp
  refine ⟨by rw [hsave], by rw [hsave]; simp, by rw [hload], by rw [hload], by rw [hload],
    ?_, by rw [hload]; exact hrel⟩
  rw [hload]
  simp only [EventHandler.Events]
  apply List.map_congr_left
  intro i _
  rfl

theorem SaveData_then_LoadData_restores_witness :
    ((EventHandler.ofEvents [⟨[9, 2, 2, 0, 1, 4, 1, 0, 5, 6, 7, 8]⟩]).SaveData
      ⟨true, true, true, 4096, fun _ => none⟩ "/e").1 = true ∧
    (EventHandler.init.LoadData
      ((EventHandler.ofEvents [⟨[9, 2, 2, 0, 1, 4, 1, 0, 5, 6, 7, 8]⟩]).SaveData
        ⟨true, true, true, 4096, fun _ => none⟩ "/e").2 "/e").2.Events =
      [⟨[9, 2, 2, 0, 1, 4, 1, 0, 5, 6, 7, 8]⟩] :=
  have w := SaveData_then_LoadData_restores
    (EventHandler.ofEvents [⟨[9, 2, 2, 0, 1, 4, 1, 0, 5, 6, 7, 8]⟩]) EventHandler.init
    ⟨true, true, true, 4096, fun _ => none⟩ "/e" rfl rfl (by decide) (by decide) (by decide)
    (by decide)
  ⟨w.1, w.2.2.2.2.2.1.trans (by decide)⟩

end RobotControl

/-! ## The device data store -/

namespace RobotControl

theorem EventData.isValid_iff (device devId target : Nat) :
    EventData.IsValid device devId target = true ↔
      (device = 1 ∧ 1 ≤ target ∧ target ≤ 3) ∨
      (device = 2 ∧ target = 1) ∨ (device = 3 ∧ target = 1) ∨
      (device = 4 ∧ target = 1) ∨ (device = 5 ∧ target = 1) ∨
      (device = 6 ∧ 1 ≤ target ∧ target ≤ 20) := by
  unfold EventData.IsValid
  simp only [Bool.and_eq_true, bne_iff_ne, decide_eq_true_eq, ED_MAX_DEVICE]
  constructor
  · rintro ⟨⟨⟨h0, h6⟩, h1⟩, hs⟩
    have hd : device = 1 ∨ device = 2 ∨ device = 3 ∨ device = 4 ∨ device = 5 ∨ device = 6 := by
      omega
    rcases hd with rfl | rfl | rfl | rfl | rfl | rfl <;>
      simp [_size, ED_SIZE_MPU, ED_SIZE_TOUCH, ED_SIZE_PSXBUTTON, ED_SIZE_BATTERY_R,
        ED_SIZE_BATTERY_L, ED_SIZE_GPIO] at hs <;> omega
  · rintro (⟨rfl, h⟩ | ⟨rfl, h⟩ | ⟨rfl, h⟩ | ⟨rfl, h⟩ | ⟨rfl, h⟩ | ⟨rfl, h⟩) <;>
      simp [_size, ED_SIZE_MPU, ED_SIZE_TOUCH, ED_SIZE_PSXBUTTON, ED_SIZE_BATTERY_R,
        ED_SIZE_BATTERY_L, ED_SIZE_GPIO] <;> omega

theorem EventData.offset_lt (device devId target : Nat)
    (hv : EventData.IsValid device devId target = true) :
    EventData.Offset device devId target < ED_DATA_SIZE := by
  rw [EventData.isValid_iff] at hv
  unfold EventData.Offset
  rcases hv with ⟨rfl, h⟩ | ⟨rfl, h⟩ | ⟨rfl, h⟩ | ⟨rfl, h⟩ | ⟨rfl, h⟩ | ⟨rfl, h⟩ <;>
    simp [_offset, ED_OFFSET_MPU, ED_OFFSET_TOUCH, ED_OFFSET_PSXBUTTON, ED_OFFSET_BATTERY_R,
      ED_OFFSET_BATTERY_L, ED_OFFSET_GPIO, ED_DATA_SIZE] <;> omega

theorem EventData.offset_injective (device devId target device' devId' target' : Nat)
    (hv : EventData.IsValid device devId target = true)
    (hv' : EventData.IsValid device' devId' target' = true)
    (heq : EventData.Offset device devId target = EventData.Offset device' devId' target') :
    device = device' ∧ target = target' := by
  rw [EventData.isValid_iff] at hv hv'
  unfold EventData.Offset at heq
  rcases hv with ⟨rfl, h⟩ | ⟨rfl, h⟩ | ⟨rfl, h⟩ | ⟨rfl, h⟩ | ⟨rfl, h⟩ | ⟨rfl, h⟩ <;>
    rcases hv' with ⟨rfl, h'⟩ | ⟨rfl, h'⟩ | ⟨rfl, h'⟩ | ⟨rfl, h'⟩ | ⟨rfl, h'⟩ | ⟨rfl, h'⟩ <;>
    simp [_offset, ED_OFFSET_MPU, ED_OFFSET_TOUCH, ED_OFFSET_PSXBUTTON, ED_OFFSET_BATTERY_R,
      ED_OFFSET_BATTERY_L, ED_OFFSET_GPIO] at heq ⊢ <;> omega

/-- C10: on a store of 64 slots, `SetData` at a valid address returns true, a
following `GetData` at that address returns the written value and `GetData` at
every other valid (category, target) address is unchanged; at an invalid address
`GetData` returns the sentinel -32768 and `SetData` returns false and leaves the
store as it was. -/
theorem SetData_GetData_contract (d : EventData) (hlen : d._data.length = ED_DATA_SIZE)
    (device devId target : Nat) (v : Int) :
    (EventData.IsValid device devId target = true →
      (d.SetData device devId target v).1 = true ∧
      (d.SetData device devId target v).2.GetData device devId target = v ∧
      (d.SetData device devId target v).2._data.length = ED_DATA_SIZE ∧
      ∀ device' devId' target', EventData.IsValid device' devId' target' = true →
        (device', target') ≠ (device, target) →
        (d.SetData device devId target v).2.GetData device' devId' target' =
          d.GetData device' devId' target') ∧
    (EventData.IsValid device devId target = false →
      d.GetData device devId target = -32768 ∧
      (d.SetData device devId target v).1 = false ∧
      (d.SetData device devId target v).2 = d) := by
  constructor
  · intro hv
    have hlt : EventData.Offset device devId target < d._data.length := by
      rw [hlen]; exact EventData.offset_lt device devId target hv
    refine ⟨by simp [EventData.SetData, hv], ?_, by simp [EventData.SetData, hv, hlen], ?_⟩
    · simp [EventData.SetData, EventData.GetData, hv, List.getD_eq_getElem?_getD,
        List.getElem?_set, hlt]
    · intro device' devId' target' hv' hne
      have hoff : EventData.Offset device devId target ≠
          EventData.Offset device' devId' target' := by
        intro heq
        obtain ⟨h1, h2⟩ := EventData.offset_injective _ _ _ _ _ _ hv hv' heq
        exact hne (by rw [h1, h2])
      simp [EventData.SetData, EventData.GetData, hv, hv', List.getD_eq_getElem?_getD,
        List.getElem?_set, hoff]
  · intro hv
    simp [EventData.SetData, EventData.GetData, hv, ED_INVALID_DATA]

theorem SetData_GetData_contract_witness :
    ((EventData.init.SetData 6 0 20 (-5)).1 = true ∧
      (EventData.init.SetData 6 0 20 (-5)).2.GetData 6 0 20 = -5 ∧
      (EventData.init.SetData 6 0 20 (-5)).2.GetData 1 0 3 = EventData.init.GetData 1 0 3) ∧
    (EventData.init.GetData 3 0 0 = -32768 ∧
      (EventData.init.SetData 3 0 0 7).1 = false ∧
      (EventData.init.SetData 3 0 0 7).2 = EventData.init) :=
  have a := (SetData_GetData_contract EventData.init (by decide) 6 0 20 (-5)).1 (by decide)
  ⟨⟨a.1, a.2.1, a.2.2.2 1 0 3 (by decide) (by decide)⟩,
    (SetData_GetData_contract EventData.init (by decide) 3 0 0 7).2 (by decide)⟩

end RobotControl

/-! ## The block of records as a rule sequence -/

namespace RobotControl

theorem EventHandler.event_ofEvents_cons_zero (e : EVENT) (es : List EVENT)
    (he : e.buffer.length = sizeofEVENT) :
    (EventHandler.ofEvents (e :: es)).event 0 = e := by
  cases e with
  | mk buf =>
    simp only at he
    simp only [EventHandler.event, EventHandler.ofEvents, List.flatMap_cons, Nat.zero_mul,
      Nat.zero_add]
    congr 1
    rw [← he]
    apply List.ext_getElem
    · simp
    · intro n h1 h2
      simp only [List.length_map, List.length_range] at h1
      simp [List.getD_eq_getElem?_getD, List.getElem?_append_left h1,
        List.getElem?_eq_getElem h1]

theorem EventHandler.event_ofEvents_cons_succ (e : EVENT) (es : List EVENT) (i : Nat)
    (he : e.buffer.length = sizeofEVENT) :
    (EventHandler.ofEvents (e :: es)).event (i + 1) = (EventHandler.ofEvents es).event i := by
  simp only [EventHandler.event, EventHandler.ofEvents, List.flatMap_cons]
  congr 1
  apply List.map_congr_left
  intro k _
  have hidx : (i + 1) * sizeofEVENT + k = e.buffer.length + (i * sizeofEVENT + k) := by
    rw [he]; ring
  rw [hidx, List.getD_eq_getElem?_getD, List.getD_eq_getElem?_getD,
    List.getElem?_append_right (by omega)]
  congr 2
  omega

/-- The handler state built from a sequence of twelve-byte records holds exactly
that sequence. -/
theorem EventHandler.Events_ofEvents (es : List EVENT)
    (h12 : ∀ e, e ∈ es → e.buffer.length = sizeofEVENT) :
    (EventHandler.ofEvents es).Events = es := by
  apply List.ext_getElem
  · simp [EventHandler.Events, EventHandler.ofEvents]
  · intro n h1 h2
    simp only [EventHandler.Events, List.getElem_map, List.getElem_range]
    clear h1
    induction es generalizing n with
    | nil => simp at h2
    | cons e es ih =>
      have he := h12 e (List.mem_cons_self e es)
      cases n with
      | zero => simpa using EventHandler.event_ofEvents_cons_zero e es he
      | succ n' =>
        rw [EventHandler.event_ofEvents_cons_succ e es n' he]
        simpa using ih (fun x hx => h12 x (List.mem_cons_of_mem e hx)) n'
          (by simpa using h2)

/-- On a handler holding twelve-byte records, the method `CheckEvents` is the
evaluation pass over that sequence. -/
theorem EventHandler.CheckEvents_ofEvents (m : CHECK_MODE) (d : EventData) (es : List EVENT)
    (h12 : ∀ e, e ∈ es → e.buffer.length = sizeofEVENT) :
    EventHandler.CheckEvents m d (EventHandler.ofEvents es) = RobotControl.CheckEvents m d es := by
  rw [EventHandler.CheckEvents, EventHandler.Events_ofEvents es h12]

end RobotControl

/-! ## The address tables -/

namespace RobotControl

/-- C11: with the declared tables (sizes 3,1,1,1,1,20 and offsets 0,3,4,5,6,7 for
categories 1..6) each offset is the previous offset plus the previous size,
offset plus size never exceeds 64, hence every valid address (category in 1..6,
target in 1..size) resolves to an index below 64, and two distinct valid
(category, target) pairs never resolve to the same index. -/
theorem offset_size_tables_disjoint :
    _size = [0, 3, 1, 1, 1, 1, 20] ∧ _offset = [0, 0, 3, 4, 5, 6, 7] ∧
    (∀ c, c < ED_MAX_DEVICE → _offset.getD (c + 1) 0 = _offset.getD c 0 + _size.getD c 0) ∧
    (∀ c, 1 ≤ c → c ≤ ED_MAX_DEVICE → _offset.getD c 0 + _size.getD c 0 ≤ ED_DATA_SIZE) ∧
    (∀ c t, 1 ≤ c → c ≤ ED_MAX_DEVICE → 1 ≤ t → t ≤ _size.getD c 0 →
      _offset.getD c 0 + (t - 1) < ED_DATA_SIZE) ∧
    (∀ c t c' t', 1 ≤ c → c ≤ ED_MAX_DEVICE → 1 ≤ t → t ≤ _size.getD c 0 →
      1 ≤ c' → c' ≤ ED_MAX_DEVICE → 1 ≤ t' → t' ≤ _size.getD c' 0 →
      (c, t) ≠ (c', t') → _offset.getD c 0 + (t - 1) ≠ _offset.getD c' 0 + (t' - 1)) := by
  refine ⟨by decide, by decide, ?_, ?_, ?_, ?_⟩
  · intro c hc
    simp only [ED_MAX_DEVICE] at hc
    interval_cases c <;> decide
  · intro c h1 h6
    simp only [ED_MAX_DEVICE] at h6
    interval_cases c <;> decide
  · intro c t h1 h6 ht1 hts
    simp only [ED_MAX_DEVICE] at h6
    interval_cases c <;>
      simp [_size, _offset, ED_SIZE_MPU, ED_SIZE_TOUCH, ED_SIZE_PSXBUTTON, ED_SIZE_BATTERY_R,
        ED_SIZE_BATTERY_L, ED_SIZE_GPIO, ED_OFFSET_MPU, ED_OFFSET_TOUCH, ED_OFFSET_PSXBUTTON,
        ED_OFFSET_BATTERY_R, ED_OFFSET_BATTERY_L, ED_OFFSET_GPIO, ED_DATA_SIZE] at hts ⊢ <;>
      omega
  · intro c t c' t' h1 h6 ht1 hts h1' h6' ht1' hts' hne heq
    apply hne
    have key : c = c' ∧ t = t' := by
      simp only [ED_MAX_DEVICE] at h6 h6'
      interval_cases c <;> interval_cases c' <;>
        simp [_size, _offset, ED_SIZE_MPU, ED_SIZE_TOUCH, ED_SIZE_PSXBUTTON, ED_SIZE_BATTERY_R,
          ED_SIZE_BATTERY_L, ED_SIZE_GPIO, ED_OFFSET_MPU, ED_OFFSET_TOUCH, ED_OFFSET_PSXBUTTON,
          ED_OFFSET_BATTERY_R, ED_OFFSET_BATTERY_L, ED_OFFSET_GPIO] at hts hts' heq ⊢ <;>
        omega
    rw [key.1, key.2]

theorem offset_size_tables_disjoint_witness :
    _offset.getD 6 0 + (20 - 1) < ED_DATA_SIZE ∧
    _offset.getD 1 0 + (3 - 1) ≠ _offset.getD 2 0 + (1 - 1) :=
  ⟨offset_size_tables_disjoint.2.2.2.2.1 6 20 (by decide) (by decide) (by decide) (by decide),
    offset_size_tables_disjoint.2.2.2.2.2 1 3 2 1 (by decide) (by decide) (by decide)
      (by decide) (by decide) (by decide) (by decide) (by decide) (by decide)⟩

end RobotControl

/-! ## Sequence validity and the requirement flags -/

namespace RobotControl

theorem EventHandler.isValidFrom_iff (es : List EVENT) :
    EventHandler.IsValidFrom es = true ↔
      ∀ e, e ∈ es → e.type ≠ 0 ∧
        EventData.IsValid e.condition.device e.condition.devId e.condition.target = true := by
  induction es with
  | nil => simp [EventHandler.IsValidFrom]
  | cons x xs ih =>
    by_cases ht : x.type = 0
    · simp [EventHandler.IsValidFrom, ht]
    · by_cases hv : EventData.IsValid x.condition.device x.condition.devId x.condition.target = true
      · simp [EventHandler.IsValidFrom, ht, hv, ih]
      · simp [EventHandler.IsValidFrom, ht, hv]

/-- C12: `EventHandler::IsValid` returns true exactly when every record of the
sequence has a non-zero type and a condition address that is valid for the device
data store; it is true for the empty sequence and false for every sequence that
contains an all-zero record. -/
theorem EventHandler_IsValid_iff_all_records_ready (h : EventHandler) :
    (h.IsValid = true ↔
      ∀ e, e ∈ h.Events → e.type ≠ 0 ∧
        EventData.IsValid e.condition.device e.condition.devId e.condition.target = true) ∧
    (h.Events = [] → h.IsValid = true) ∧
    (EVENT.zero ∈ h.Events → h.IsValid = false) := by
  have key := EventHandler.isValidFrom_iff h.Events
  refine ⟨key, ?_, ?_⟩
  · intro he
    simp [EventHandler.IsValid, he, EventHandler.IsValidFrom]
  · intro hz
    have : ¬ h.IsValid = true := by
      intro hv
      have h0 := ((key.1 hv) EVENT.zero hz).1
      exact h0 (by decide)
    simpa using this

theorem EventHandler_IsValid_iff_all_records_ready_witness :
    EventHandler.init.IsValid = true ∧
    (EventHandler.ofEvents [⟨[0, 2, 2, 0, 1, 4, 1, 0, 0, 0, 0, 0]⟩, EVENT.zero]).IsValid = false :=
  ⟨(EventHandler_IsValid_iff_all_records_ready EventHandler.init).2.1 (by decide),
    (EventHandler_IsValid_iff_all_records_ready
      (EventHandler.ofEvents [⟨[0, 2, 2, 0, 1, 4, 1, 0, 0, 0, 0, 0]⟩, EVENT.zero])).2.2
      (by decide)⟩

theorem EventData.device_le_of_isValid (device devId target : Nat)
    (hv : EventData.IsValid device devId target = true) : 1 ≤ device ∧ device ≤ ED_MAX_DEVICE := by
  rw [EventData.isValid_iff] at hv
  simp only [ED_MAX_DEVICE]
  omega

theorem requirement_fold (es : List EVENT) :
    ∀ req : List Bool, req.length = ED_MAX_DEVICE + 1 →
      (es.foldl (fun req evt =>
        if EventData.IsValid evt.condition.device evt.condition.devId evt.condition.target
        then req.set evt.condition.device true else req) req).length = ED_MAX_DEVICE + 1 ∧
      ∀ d, (es.foldl (fun req evt =>
          if EventData.IsValid evt.condition.device evt.condition.devId evt.condition.target
          then req.set evt.condition.device true else req) req).getD d false = true ↔
        (req.getD d false = true ∨ ∃ e, e ∈ es ∧
          EventData.IsValid e.condition.device e.condition.devId e.condition.target = true ∧
          e.condition.device = d) := by
  induction es with
  | nil => intro req hlen; simp [hlen]
  | cons x xs ih =>
    intro req hlen
    simp only [List.foldl_cons]
    by_cases hv : EventData.IsValid x.condition.device x.condition.devId x.condition.target = true
    · have hdev := (EventData.device_le_of_isValid _ _ _ hv).2
      have hlt : x.condition.device < req.length := by rw [hlen]; omega
      obtain ⟨h1, h2⟩ := ih (req.set x.condition.device true) (by simp [hlen])
      simp only [hv, if_true]
      refine ⟨h1, ?_⟩
      intro d
      rw [h2 d]
      simp only [List.getD_eq_getElem?_getD, List.getElem?_set, hlt, if_true, List.mem_cons,
        exists_eq_or_imp]
      by_cases hd : x.condition.device = d
      · subst hd
        simp [hv]
      · simp [hd]
    · obtain ⟨h1, h2⟩ := ih req hlen
      rw [if_neg hv]
      refine ⟨h1, ?_⟩
      intro d
      rw [h2 d]
      simp [hv]

end RobotControl

namespace RobotControl

/-- C13: after `CheckEventsRequirement`, `IsRequired d` is true exactly when some
record of the sequence has a valid condition address and device `d`, whatever the
flags were before; so `IsRequired 0` and `IsRequired d` for `d > 6` are false,
every flag write is inside the seven-slot array, and a sequence whose records
refer only to touch and gpio, each with a valid address, sets exactly those two
flags. -/
theorem CheckEventsRequirement_sets_exactly_referenced (h : EventHandler) :
    (∀ d, h.CheckEventsRequirement.IsRequired d = true ↔
      ∃ e, e ∈ h.Events ∧
        EventData.IsValid e.condition.device e.condition.devId e.condition.target = true ∧
        e.condition.device = d) ∧
    h.CheckEventsRequirement.IsRequired 0 = false ∧
    (∀ d, d > 6 → h.CheckEventsRequirement.IsRequired d = false) ∧
    h.CheckEventsRequirement._reqDevice.length = 7 ∧
    (∀ e, e ∈ h.Events →
      EventData.IsValid e.condition.device e.condition.devId e.condition.target = true →
      e.condition.device < 7) ∧
    ((∀ e, e ∈ h.Events →
        e.condition.device = DEVICE.touch ∨ e.condition.device = DEVICE.gpio) →
      (∃ e, e ∈ h.Events ∧ e.condition.device = DEVICE.touch ∧
        EventData.IsValid e.condition.device e.condition.devId e.condition.target = true) →
      (∃ e, e ∈ h.Events ∧ e.condition.device = DEVICE.gpio ∧
        EventData.IsValid e.condition.device e.condition.devId e.condition.target = true) →
      ∀ d, h.CheckEventsRequirement.IsRequired d = true ↔
        (d = DEVICE.touch ∨ d = DEVICE.gpio)) := by
  obtain ⟨hlen, hfold⟩ := requirement_fold h.Events
    (List.replicate (ED_MAX_DEVICE + 1) false) (by simp)
  have hclear : ∀ d, ¬ (List.replicate (ED_MAX_DEVICE + 1) false).getD d false = true := by
    intro d
    simp [List.getD_eq_getElem?_getD, List.getElem?_replicate]
    split <;> simp
  have key : ∀ d, h.CheckEventsRequirement.IsRequired d = true ↔
      ∃ e, e ∈ h.Events ∧
        EventData.IsValid e.condition.device e.condition.devId e.condition.target = true ∧
        e.condition.device = d := by
    intro d
    unfold EventHandler.IsRequired EventHandler.CheckEventsRequirement
    by_cases hd : d ≤ ED_MAX_DEVICE
    · simp only [hd, if_true]
      rw [hfold d]
      simp only [hclear d, Bool.false_eq_true, false_or]
    · simp only [hd, if_false, Bool.false_eq_true, false_iff]
      rintro ⟨e, _, hv, he⟩
      have := (EventData.device_le_of_isValid _ _ _ hv).2
      omega
  have hfalse : ∀ d, (¬ ∃ e, e ∈ h.Events ∧
        EventData.IsValid e.condition.device e.condition.devId e.condition.target = true ∧
        e.condition.device = d) → h.CheckEventsRequirement.IsRequired d = false := by
    intro d hn
    have : ¬ h.CheckEventsRequirement.IsRequired d = true := fun hr => hn ((key d).1 hr)
    simpa using this
  refine ⟨key, ?_, ?_, ?_, ?_, ?_⟩
  · apply hfalse
    rintro ⟨e, _, hv, he⟩
    have := (EventData.device_le_of_isValid _ _ _ hv).1
    omega
  · intro d hd
    apply hfalse
    rintro ⟨e, _, hv, he⟩
    have := (EventData.device_le_of_isValid _ _ _ hv).2
    simp only [ED_MAX_DEVICE] at this
    omega
  · simpa [EventHandler.CheckEventsRequirement, ED_MAX_DEVICE] using hlen
  · intro e _ hv
    have := (EventData.device_le_of_isValid _ _ _ hv).2
    simp only [ED_MAX_DEVICE] at this
    omega
  · intro honly ⟨et, het, hdt, hvt⟩ ⟨eg, heg, hdg, hvg⟩ d
    rw [key d]
    constructor
    · rintro ⟨e, he, _, hde⟩
      rw [← hde]
      exact honly e he
    · rintro (rfl | rfl)
      · exact ⟨et, het, hvt, hdt⟩
      · exact ⟨eg, heg, hvg, hdg⟩

theorem CheckEventsRequirement_sets_exactly_referenced_witness :
    (({ EventHandler.ofEvents
          [⟨[0, 2, 2, 0, 1, 4, 1, 0, 0, 0, 0, 0]⟩, ⟨[1, 1, 6, 0, 20, 1, 1, 0, 0, 0, 0, 0]⟩] with
        _reqDevice := [true, true, true, true, true, true, true] } :
      EventHandler).CheckEventsRequirement.IsRequired 6 = true ↔
      (6 = DEVICE.touch ∨ 6 = DEVICE.gpio)) ∧
    (({ EventHandler.ofEvents
          [⟨[0, 2, 2, 0, 1, 4, 1, 0, 0, 0, 0, 0]⟩, ⟨[1, 1, 6, 0, 20, 1, 1, 0, 0, 0, 0, 0]⟩] with
        _reqDevice := [true, true, true, true, true, true, true] } :
      EventHandler).CheckEventsRequirement.IsRequired 3 = true ↔
      (3 = DEVICE.touch ∨ 3 = DEVICE.gpio)) :=
  have w := (CheckEventsRequirement_sets_exactly_referenced
    { EventHandler.ofEvents
        [⟨[0, 2, 2, 0, 1, 4, 1, 0, 0, 0, 0, 0]⟩, ⟨[1, 1, 6, 0, 20, 1, 1, 0, 0, 0, 0, 0]⟩] with
      _reqDevice := [true, true, true, true, true, true, true] }).2.2.2.2.2
    (by decide)
    ⟨⟨[0, 2, 2, 0, 1, 4, 1, 0, 0, 0, 0, 0]⟩, by decide, by decide, by decide⟩
    ⟨⟨[1, 1, 6, 0, 20, 1, 1, 0, 0, 0, 0, 0]⟩, by decide, by decide, by decide⟩
  ⟨w 6, w 3⟩

end RobotControl

/-! ## Storage failures and the empty rule set -/

namespace RobotControl

/-- C14: evaluation of `LoadData` when `SPIFFS.begin()` fails, the file at the
path holding one well-formed record: `FileSize` yields 0, so `LoadData` returns
true with no records, while `ReadFile` on the same store reports the failure. -/
theorem LoadData_reports_success_when_mount_fails :
    (EventHandler.init.LoadData
      ⟨false, true, true, 4096, fun p => if p = "/e" then
        some [9, 2, 2, 0, 1, 4, 1, 0, 5, 6, 7, 8] else none⟩ "/e").1 = true ∧
    (EventHandler.init.LoadData
      ⟨false, true, true, 4096, fun p => if p = "/e" then
        some [9, 2, 2, 0, 1, 4, 1, 0, 5, 6, 7, 8] else none⟩ "/e").2.Events = [] ∧
    ((EventHandler.ofEvents [⟨[1, 2, 6, 0, 3, 4, 2, 0, 9, 9, 9, 9]⟩]).LoadData
      ⟨false, true, true, 4096, fun p => if p = "/e" then
        some [9, 2, 2, 0, 1, 4, 1, 0, 5, 6, 7, 8] else none⟩ "/e").1 = true ∧
    ((EventHandler.ofEvents [⟨[1, 2, 6, 0, 3, 4, 2, 0, 9, 9, 9, 9]⟩]).LoadData
      ⟨false, true, true, 4096, fun p => if p = "/e" then
        some [9, 2, 2, 0, 1, 4, 1, 0, 5, 6, 7, 8] else none⟩ "/e").2._evtCount = 0 ∧
    EventHandler.ReadFile
      ⟨false, true, true, 4096, fun p => if p = "/e" then
        some [9, 2, 2, 0, 1, 4, 1, 0, 5, 6, 7, 8] else none⟩ "/e" 12 = none := by
  decide

/-- C15: on a file store where mounting and removing succeed, `SaveData` of an
empty rule sequence at a path where a file exists returns true and leaves no
file there, and a following `LoadData` of that path returns true with a
zero-count sequence; `Reset(0)` produces such an empty sequence. -/
theorem SaveData_empty_removes_file (h h0 : EventHandler) (fs : SPIFFS) (path : String)
    (bytes : List Nat)
    (hmount : fs.beginOk = true) (hremove : fs.removeOk = true)
    (hempty : h._evtCount = 0) (hfile : fs.files path = some bytes) :
    (h.SaveData fs path).1 = true ∧
    (h.SaveData fs path).2.files path = none ∧
    (∀ q, q ≠ path → (h.SaveData fs path).2.files q = fs.files q) ∧
    (h0.LoadData (h.SaveData fs path).2 path).1 = true ∧
    (h0.LoadData (h.SaveData fs path).2 path).2._evtCount = 0 ∧
    (h0.LoadData (h.SaveData fs path).2 path).2.Events = [] ∧
    (h0.Reset 0)._evtCount = 0 ∧ (h0.Reset 0).Events = [] := by
  have hsave : h.SaveData fs path =
      (true, { fs with files := fun p => if p = path then none else fs.files p }) := by
    simp [EventHandler.SaveData, EventHandler.DeleteFile, hempty, hmount, hremove, hfile]
  have hrel : h0.ReleaseMemory._evtCount = 0 := by
    unfold EventHandler.ReleaseMemory
    split
    · rfl
    · omega
  have hload : h0.LoadData (h.SaveData fs path).2 path = (true, h0.ReleaseMemory) := by
    rw [hsave]
    simp [EventHandler.LoadData, EventHandler.FileSize, hmount]
  refine ⟨by rw [hsave], by rw [hsave]; simp, ?_, by rw [hload], by rw [hload]; exact hrel,
    ?_, by simp [EventHandler.Reset, EventHandler.SetCount],
    by simp [EventHandler.Reset, EventHandler.SetCount, EventHandler.Events]⟩
  · intro q hq
    rw [hsave]
    simp [hq]
  · rw [hload]
    simp [EventHandler.Events, hrel]

theorem SaveData_empty_removes_file_witness :
    ((EventHandler.init.Reset 0).SaveData
      ⟨true, true, true, 4096, fun p => if p = "/e" then
        some [9, 2, 2, 0, 1, 4, 1, 0, 5, 6, 7, 8] else none⟩ "/e").2.files "/e" = none ∧
    ((EventHandler.ofEvents [⟨[1, 2, 6, 0, 3, 4, 2, 0, 9, 9, 9, 9]⟩]).LoadData
      ((EventHandler.init.Reset 0).SaveData
        ⟨true, true, true, 4096, fun p => if p = "/e" then
          some [9, 2, 2, 0, 1, 4, 1, 0, 5, 6, 7, 8] else none⟩ "/e").2 "/e").1 = true ∧
    ((EventHandler.ofEvents [⟨[1, 2, 6, 0, 3, 4, 2, 0, 9, 9, 9, 9]⟩]).LoadData
      ((EventHandler.init.Reset 0).SaveData
        ⟨true, true, true, 4096, fun p => if p = "/e" then
          some [9, 2, 2, 0, 1, 4, 1, 0, 5, 6, 7, 8] else none⟩ "/e").2 "/e").2._evtCount = 0 :=
  have w := SaveData_empty_removes_file (EventHandler.init.Reset 0)
    (EventHandler.ofEvents [⟨[1, 2, 6, 0, 3, 4, 2, 0, 9, 9, 9, 9]⟩])
    ⟨true, true, true, 4096, fun p => if p = "/e" then
      some [9, 2, 2, 0, 1, 4, 1, 0, 5, 6, 7, 8] else none⟩ "/e"
    [9, 2, 2, 0, 1, 4, 1, 0, 5, 6, 7, 8] rfl rfl (by decide) (by decide)
  ⟨w.2.1, w.2.2.2.1, w.2.2.2.2.1⟩

end RobotControl

/-! ## Unconfigured records, the sentinel and prefixes -/

namespace RobotControl

theorem checkEventsFrom_filter_type_zero (m : CHECK_MODE) (d : EventData) (es : List EVENT) :
    ∀ skip : Bool,
      CheckEventsFrom m d skip (es.filter fun e => e.type != 0) = CheckEventsFrom m d skip es := by
  induction es with
  | nil => intro skip; rfl
  | cons e es ih =>
    intro skip
    by_cases h0 : e.type = 0
    · have hh : ¬ e.type = EVENT_TYPE.handler := by rw [h0]; decide
      have hp : ¬ e.type = EVENT_TYPE.preCond := by rw [h0]; decide
      have hn : nextSkip m d skip e = skip := by
        cases skip <;> simp [nextSkip, hh, hp]
      have hf : (e :: es).filter (fun e => e.type != 0) = es.filter (fun e => e.type != 0) := by
        simp [List.filter_cons, h0]
      rw [hf, ih skip, checkEventsFrom_cons, hn]
      simp [hh]
    · have hf : (e :: es).filter (fun e => e.type != 0) =
          e :: es.filter (fun e => e.type != 0) := by
        simp [List.filter_cons, h0]
      rw [hf, checkEventsFrom_cons, checkEventsFrom_cons, ih]

/-- C16: a record of type 0 is treated as not configured: whatever `CheckEvents`
returns as a match has type handler, never type 0, and removing all records of
type 0 from the sequence, the others keeping their order, leaves the result of
`CheckEvents` unchanged. -/
theorem CheckEvents_ignores_type_zero_records (m : CHECK_MODE) (d : EventData)
    (es : List EVENT) :
    (CheckEvents m d es = EVENT.zero ∨
      (∃ e, e ∈ es ∧ CheckEvents m d es = e ∧ e.type = EVENT_TYPE.handler ∧ e.type ≠ 0)) ∧
    CheckEvents m d (es.filter fun e => e.type != 0) = CheckEvents m d es := by
  refine ⟨?_, checkEventsFrom_filter_type_zero m d es false⟩
  rcases checkEventsFrom_spec m d es false with ⟨i, e, he, ⟨x, hx, ht, _, _⟩, _, hres⟩ | ⟨_, hres⟩
  · right
    rw [he] at hx
    cases hx
    exact ⟨e, List.mem_iff_getElem?.2 ⟨i, he⟩, hres, ht, by rw [ht]; decide⟩
  · exact Or.inl hres

theorem checkEventsFrom_append_of_handler (m : CHECK_MODE) (d : EventData)
    (xs ys : List EVENT) :
    ∀ skip : Bool, (CheckEventsFrom m d skip xs).type = EVENT_TYPE.handler →
      CheckEventsFrom m d skip (xs ++ ys) = CheckEventsFrom m d skip xs := by
  induction xs with
  | nil =>
    intro skip h
    simp only [CheckEventsFrom] at h
    exact absurd h (by decide)
  | cons e es ih =>
    intro skip h
    rw [List.cons_append, checkEventsFrom_cons]
    rw [checkEventsFrom_cons] at h ⊢
    split
    · rfl
    · rename_i hret
      rw [if_neg hret] at h
      exact ih _ h

/-- C18: `CheckEvents` depends only on the prefix up to the record it returns:
when `CheckEvents` on `xs` returns a record of type handler, `CheckEvents` on
`xs ++ ys` returns the same record. -/
theorem CheckEvents_append_of_match (m : CHECK_MODE) (d : EventData) (xs ys : List EVENT)
    (h : (CheckEvents m d xs).type = EVENT_TYPE.handler) :
    CheckEvents m d (xs ++ ys) = CheckEvents m d xs :=
  checkEventsFrom_append_of_handler m d xs ys false h

theorem CheckEvents_append_of_match_witness :
    CheckEvents CHECK_MODE.sample EventData.init
        ([⟨[0, 1, 2, 0, 1, 4, 1, 0, 0, 0, 0, 0]⟩, ⟨[1, 2, 6, 0, 3, 4, 2, 0, 9, 9, 9, 9]⟩] ++
          [⟨[2, 2, 2, 0, 1, 4, 1, 0, 7, 7, 7, 7]⟩]) =
      CheckEvents CHECK_MODE.sample EventData.init
        [⟨[0, 1, 2, 0, 1, 4, 1, 0, 0, 0, 0, 0]⟩, ⟨[1, 2, 6, 0, 3, 4, 2, 0, 9, 9, 9, 9]⟩] :=
  CheckEvents_append_of_match CHECK_MODE.sample EventData.init
    [⟨[0, 1, 2, 0, 1, 4, 1, 0, 0, 0, 0, 0]⟩, ⟨[1, 2, 6, 0, 3, 4, 2, 0, 9, 9, 9, 9]⟩]
    [⟨[2, 2, 2, 0, 1, 4, 1, 0, 7, 7, 7, 7]⟩] (by decide)

end RobotControl

namespace RobotControl

theorem sentinel_and_eq_zero_iff (x : Nat) :
    32768 &&& x = 0 ↔ x.testBit 15 = false := by
  rw [and_eq_zero_iff_no_common_bit 32768 x (by decide)]
  constructor
  · intro h
    have h15 := h 15 (by decide)
    have hbit : Nat.testBit 32768 15 = true := by decide
    cases hx : x.testBit 15 with
    | false => rfl
    | true => exact absurd ⟨hbit, hx⟩ h15
  · intro h i hi hab
    have hi15 : i = 15 := by
      by_contra hne
      have : Nat.testBit 32768 i = false := by
        interval_cases i <;> first | decide | exact absurd rfl hne
      rw [this] at hab
      exact Bool.false_ne_true hab.1
    rw [hi15, h] at hab
    exact Bool.false_ne_true hab.2

theorem EventData.getData_init (device devId target : Nat) :
    EventData.init.GetData device devId target = ED_INVALID_DATA := by
  unfold EventData.GetData EventData.init
  split
  · rfl
  · simp only [List.getD_eq_getElem?_getD, List.getElem?_replicate]
    split <;> rfl

/-- C17: for a valid address whose slot holds the sentinel -32768, a button-mode
condition matches exactly when bit 15 of the comparison value is clear; on the
freshly initialised store every match, greater or less condition is unmatched,
while a handler record with a valid address, button mode and mask 0x0001 is
returned by `CheckEvents`. -/
theorem sentinel_slot_matches_in_button_mode (m : CHECK_MODE) :
    (∀ (d : EventData) (c : CONDITION), c.checkMode = m.button →
      EventData.IsValid c.device c.devId c.target = true →
      d._data.getD (EventData.Offset c.device c.devId c.target) ED_INVALID_DATA = -32768 →
      (MatchCondition m d c = true ↔ (toUInt16 c.value).testBit 15 = false)) ∧
    (∀ c : CONDITION,
      c.checkMode = m.match_ ∨ c.checkMode = m.greater ∨ c.checkMode = m.less →
      MatchCondition m EventData.init c = false) ∧
    (∀ (e : EVENT) (rest : List EVENT), e.type = EVENT_TYPE.handler →
      EventData.IsValid e.condition.device e.condition.devId e.condition.target = true →
      e.condition.checkMode = m.button → e.condition.value = 0x0001 →
      CheckEvents m EventData.init (e :: rest) = e) := by
  obtain ⟨h1, h2, h3, h4, h5, h6⟩ := m.codes_ne
  have e1 : ¬ m.button = m.match_ := fun h => h3 h.symm
  have e2 : ¬ m.button = m.greater := fun h => h5 h.symm
  have e3 : ¬ m.button = m.less := fun h => h6 h.symm
  have hbutton : ∀ (d : EventData) (c : CONDITION), c.checkMode = m.button →
      EventData.IsValid c.device c.devId c.target = true →
      d._data.getD (EventData.Offset c.device c.devId c.target) ED_INVALID_DATA = -32768 →
      (MatchCondition m d c = true ↔ (toUInt16 c.value).testBit 15 = false) := by
    intro d c hmode hv hs
    have hu : toUInt16 (-32768 : Int) = 32768 := by decide
    simp only [MatchCondition, EventData.GetData, hv, hmode, e1, e2, e3, hs, hu,
      Bool.not_true, Bool.false_eq_true, if_false, if_true, decide_eq_true_eq]
    exact sentinel_and_eq_zero_iff _
  refine ⟨hbutton, ?_, ?_⟩
  · intro c hc
    unfold MatchCondition
    simp only [EventData.getData_init]
    rcases hc with hc | hc | hc
    · simp [hc]
    · simp [hc]
    · simp [hc]
  · intro e rest ht hv hmode hval
    have hslot : EventData.init._data.getD
        (EventData.Offset e.condition.device e.condition.devId e.condition.target)
        ED_INVALID_DATA = -32768 := by
      have := EventData.getData_init e.condition.device e.condition.devId e.condition.target
      simpa [EventData.GetData, hv, ED_INVALID_DATA] using this
    have hm : MatchCondition m EventData.init e.condition = true := by
      rw [hbutton EventData.init e.condition hmode hv hslot, hval]
      decide
    simp [CheckEvents, CheckEventsFrom, hm, ht]

theorem sentinel_slot_matches_in_button_mode_witness :
    (MatchCondition CHECK_MODE.sample EventData.init ⟨3, 0, 1, 4, 0x7FFF⟩ = true ↔
      (toUInt16 0x7FFF).testBit 15 = false) ∧
    MatchCondition CHECK_MODE.sample EventData.init ⟨3, 0, 1, 2, -5⟩ = false ∧
    CheckEvents CHECK_MODE.sample EventData.init
        [⟨[0, 2, 2, 0, 1, 4, 1, 0, 0, 0, 0, 0]⟩, ⟨[1, 2, 6, 0, 3, 4, 2, 0, 9, 9, 9, 9]⟩] =
      ⟨[0, 2, 2, 0, 1, 4, 1, 0, 0, 0, 0, 0]⟩ :=
  ⟨(sentinel_slot_matches_in_button_mode CHECK_MODE.sample).1 EventData.init
      ⟨3, 0, 1, 4, 0x7FFF⟩ (by decide) (by decide) (by decide),
    (sentinel_slot_matches_in_button_mode CHECK_MODE.sample).2.1 ⟨3, 0, 1, 2, -5⟩
      (by decide),
    (sentinel_slot_matches_in_button_mode CHECK_MODE.sample).2.2
      ⟨[0, 2, 2, 0, 1, 4, 1, 0, 0, 0, 0, 0]⟩ [⟨[1, 2, 6, 0, 3, 4, 2, 0, 9, 9, 9, 9]⟩]
      (by decide) (by decide) (by decide) (by decide)⟩

end RobotControl

/-! ## The PSX button driver -/

namespace RobotControl

/-- C19: the PSX button driver publishes with `SetData(psx_button, devId, 0, data)`;
target 0 lies outside `[1, size(psx_button)] = [1, 1]`, so for every devId and
value the address is not valid, `SetData` returns false and the store is
unchanged: a call of the driver's `GetData` leaves the store as it was, and a
read of the valid address (psx_button, target 1) returns what it returned before. -/
theorem EdsPsxButton_GetData_leaves_store_unchanged (b : EdsPsxButton) (d : EventData)
    (p : PsxPoll) (hdev : b._Device = DEVICE.psx_button) :
    _size.getD DEVICE.psx_button 0 = 1 ∧
    (∀ devId, EventData.IsValid DEVICE.psx_button devId 0 = false) ∧
    (∀ devId v, d.SetData DEVICE.psx_button devId 0 v = (false, d)) ∧
    (b.GetData d p).2.2 = d ∧
    (∀ devId, EventData.IsValid DEVICE.psx_button devId 1 = true ∧
      (b.GetData d p).2.2.GetData DEVICE.psx_button devId 1 =
        d.GetData DEVICE.psx_button devId 1) ∧
    (b.GetData d p).2.1._Device = DEVICE.psx_button := by
  have hinv : ∀ devId, EventData.IsValid DEVICE.psx_button devId 0 = false := by
    intro devId; rfl
  have hset : ∀ devId v, d.SetData DEVICE.psx_button devId 0 v = (false, d) := by
    intro devId v
    simp [EventData.SetData, hinv]
  have hstore : (b.GetData d p).2.2 = d := by
    unfold EdsPsxButton.GetData
    simp only [hdev]
    split
    · rfl
    · split
      · rfl
      · split
        · rfl
        · simp [hset]
  have hdevice : (b.GetData d p).2.1._Device = DEVICE.psx_button := by
    unfold EdsPsxButton.GetData
    dsimp only
    repeat' split
    all_goals exact hdev
  refine ⟨by decide, hinv, hset, hstore, ?_, hdevice⟩
  intro devId
  exact ⟨rfl, by rw [hstore]⟩

theorem EdsPsxButton_GetData_leaves_store_unchanged_witness :
    ((EdsPsxButton.create 0).GetData EventData.init ⟨true, true, 0xFF, 0xFE, false⟩).1 = true ∧
    ((EdsPsxButton.create 0).GetData EventData.init ⟨true, true, 0xFF, 0xFE, false⟩).2.2 =
      EventData.init :=
  ⟨by decide,
    (EdsPsxButton_GetData_leaves_store_unchanged (EdsPsxButton.create 0) EventData.init
      ⟨true, true, 0xFF, 0xFE, false⟩ rfl).2.2.2.1⟩

end RobotControl
